import Mathlib

/-!
Verification of the query/pagination/session core of the Tax_employ_backend
repository (FastAPI + MongoDB).  The Python source is shallowly embedded:
documents are association lists of string keys to a small `Value` type with
Python-dict semantics (unique keys, first-match lookup, in-place overwrite),
collections are lists of documents, and each service function from
`src/app/services/*.py`, `src/app/api/auth.py` and `src/app/utils/helpers.py`
is translated into a pure Lean function over that state.
-/

namespace TaxEmploy

/-- A BSON-ish value as used by the backend's documents.  `vOid` holds the
canonical 24-character lowercase hex rendering of a MongoDB ObjectId. -/
inductive Value where
  | vNull : Value
  | vBool (b : Bool) : Value
  | vNat  (n : Nat) : Value
  | vStr  (s : String) : Value
  | vOid  (hex : String) : Value
deriving DecidableEq

/-- A document: a Python dict, modelled as an association list.  All
documents manipulated by the code have pairwise-distinct keys (Python dicts
cannot hold duplicates); operations below implement dict semantics under
that convention. -/
abbrev Doc : Type := List (String × Value)

/-- A collection of documents (a MongoDB collection's content, in order). -/
abbrev Store : Type := List Doc

/-- Dict lookup: value at a key (first occurrence). -/
def Doc.lookup : Doc → String → Option Value
  | [], _ => none
  | (k, v) :: rest, key => if k = key then some v else Doc.lookup rest key

/-- Dict assignment `d[k] = v`: overwrite in place if the key exists
(keeping its position), else append at the end — Python dict semantics. -/
def Doc.set : Doc → String → Value → Doc
  | [], k, v => [(k, v)]
  | (k0, v0) :: rest, k, v =>
    if k0 = k then (k, v) :: rest else (k0, v0) :: Doc.set rest k v

/-- Dict key removal (`pop` / Mongo `$unset`): drops the key.  On the
duplicate-free dicts the code uses, this equals Python's `pop`. -/
def Doc.erase : Doc → String → Doc
  | [], _ => []
  | (k0, v0) :: rest, k =>
    if k0 = k then Doc.erase rest k else (k0, v0) :: Doc.erase rest k

/-- Mongo `$set`: apply every key/value of `upd` to `d`, left to right. -/
def Doc.merge (d : Doc) : Doc → Doc
  | [] => d
  | (k, v) :: rest => Doc.merge (Doc.set d k v) rest

/-- A hexadecimal digit character. -/
def isHexChar (c : Char) : Bool :=
  ('0' ≤ c && c ≤ '9') || ('a' ≤ c && c ≤ 'f') || ('A' ≤ c && c ≤ 'F')

/-- Embedding of `is_valid_object_id` (src/app/utils/helpers.py):
`ObjectId(id_str)` succeeds on a string exactly when it is 24 hex
characters (bson decodes it to the 12-byte native id). -/
def is_valid_object_id (s : String) : Bool :=
  s.length = 24 && s.data.all isHexChar

/-- ASCII-lowercase a string, character by character (the strings involved
are ASCII: hex ids, search queries over ASCII fields). -/
def lowerString (s : String) : String :=
  String.mk (s.data.map Char.toLower)

/-- The native identifier denoted by a valid id string: bson decodes hex
case-insensitively and renders ids in lowercase, so the canonical form is
the lowercased string. -/
def objectIdOf (s : String) : String :=
  lowerString s

/-- Python `str(...)` on the values our documents hold (`str` of an
ObjectId is its 24-char hex rendering). -/
def pyStr : Value → String
  | Value.vNull => "None"
  | Value.vBool b => if b then "True" else "False"
  | Value.vNat n => toString n
  | Value.vStr s => s
  | Value.vOid h => h

/-- Embedding of `format_content_response` (src/app/utils/helpers.py).
The `Option` input is the Python argument, which may be `None` (e.g. a
`find_one` miss); `if not content` is true for `None` and for the empty
dict. -/
def format_content_response : Option Doc → Doc
  | none => []
  | some content =>
    if content = ([] : Doc) then []
    else
      match Doc.lookup content "_id" with
      | some v => Doc.set (Doc.erase content "_id") "id" (Value.vStr (pyStr v))
      | none => content

/-- Embedding of `format_contact_response` (src/app/utils/helpers.py);
its body is identical to `format_content_response`. -/
def format_contact_response : Option Doc → Doc
  | none => []
  | some contact =>
    if contact = ([] : Doc) then []
    else
      match Doc.lookup contact "_id" with
      | some v => Doc.set (Doc.erase contact "_id") "id" (Value.vStr (pyStr v))
      | none => contact

/-- Embedding of `paginate_query` (src/app/utils/helpers.py). -/
def paginate_query (skip limit : Int) : Int × Int :=
  (max 0 skip, max 1 (min limit 100))

/-- The page-info record returned by `calculate_page_info`. -/
structure PageInfo where
  page : Int
  page_size : Int
  total : Int
  total_pages : Int
deriving DecidableEq

/-- Embedding of `calculate_page_info` (src/app/utils/helpers.py).
Python `//` is floor division, i.e. `Int.fdiv`. -/
def calculate_page_info (total skip limit : Int) : PageInfo :=
  { page := if 0 < limit then Int.fdiv skip limit + 1 else 1
    page_size := limit
    total := total
    total_pages := if 0 < limit then Int.fdiv (total + limit - 1) limit else 1 }

/-- For a positive divisor, Python floor division is the floor of the exact
rational quotient. -/
theorem fdiv_eq_floor_ratDiv (a b : ℤ) (hb : 0 < b) :
    Int.fdiv a b = ⌊(a : ℚ) / (b : ℚ)⌋ := by
  rw [Int.fdiv_eq_ediv a hb.le]
  have hbq : (0 : ℚ) < (b : ℚ) := by exact_mod_cast hb
  symm
  rw [Int.floor_eq_iff]
  constructor
  · rw [le_div_iff₀ hbq]
    exact_mod_cast Int.ediv_mul_le a hb.ne'
  · rw [div_lt_iff₀ hbq]
    exact_mod_cast Int.lt_ediv_add_one_mul_self a hb

/-- For a positive divisor, the code's `(a + b - 1) // b` is the ceiling of
the exact rational quotient. -/
theorem fdiv_pred_eq_ceil_ratDiv (a b : ℤ) (hb : 0 < b) :
    Int.fdiv (a + b - 1) b = ⌈(a : ℚ) / (b : ℚ)⌉ := by
  rw [Int.fdiv_eq_ediv _ hb.le]
  have hbq : (0 : ℚ) < (b : ℚ) := by exact_mod_cast hb
  have h1 : (a + b - 1) / b * b ≤ a + b - 1 := Int.ediv_mul_le _ hb.ne'
  have h2 : a + b - 1 < ((a + b - 1) / b + 1) * b := Int.lt_ediv_add_one_mul_self _ hb
  symm
  rw [Int.ceil_eq_iff]
  constructor
  · rw [lt_div_iff₀ hbq]
    have : ((a + b - 1) / b - 1) * b < a := by nlinarith
    exact_mod_cast this
  · rw [div_le_iff₀ hbq]
    have : a ≤ (a + b - 1) / b * b := by nlinarith
    exact_mod_cast this

/-- C1 counterexample: the claim's clause "total = 0 yields page = 1" fails.
With total = 0, skip = 10, limit = 10 — all inside the claim's quantified
domain (total ≥ 0, skip ≥ 0, limit ∈ [1,100]) — the code returns page = 2,
because `page` never depends on `total`. -/
theorem calculate_page_info_total_zero_page_counterexample :
    (calculate_page_info 0 10 10).page = 2 ∧ (2 : Int) ≠ 1 := by
  constructor
  · rfl
  · decide

/-- C1 (amended): for total ≥ 0, skip ≥ 0 and limit ∈ [1,100],
`calculate_page_info` returns page = ⌊skip/limit⌋ + 1, pageSize = limit,
total = total and totalPages = ⌈total/limit⌉; total = 0 yields
totalPages = 0 (and page = 1 exactly when additionally skip < limit, since
page does not depend on total); for limit ≤ 0 the defensive branch yields
totalPages = 1 and page = 1. -/
theorem calculate_page_info_spec (total skip limit : Int)
    (htotal : 0 ≤ total) (hskip : 0 ≤ skip) (hlo : 1 ≤ limit) (hhi : limit ≤ 100) :
    (calculate_page_info total skip limit).page = ⌊(skip : ℚ) / (limit : ℚ)⌋ + 1
    ∧ (calculate_page_info total skip limit).page_size = limit
    ∧ (calculate_page_info total skip limit).total = total
    ∧ (calculate_page_info total skip limit).total_pages = ⌈(total : ℚ) / (limit : ℚ)⌉
    ∧ (total = 0 → (calculate_page_info total skip limit).total_pages = 0)
    ∧ (skip < limit → (calculate_page_info total skip limit).page = 1)
    ∧ (∀ t s l : Int, l ≤ 0 →
        (calculate_page_info t s l).total_pages = 1 ∧ (calculate_page_info t s l).page = 1) := by
  have hpos : (0 : Int) < limit := hlo
  refine ⟨?_, rfl, rfl, ?_, ?_, ?_, ?_⟩
  · show (if 0 < limit then Int.fdiv skip limit + 1 else 1) = _
    rw [if_pos hpos, fdiv_eq_floor_ratDiv skip limit hpos]
  · show (if 0 < limit then Int.fdiv (total + limit - 1) limit else 1) = _
    rw [if_pos hpos, fdiv_pred_eq_ceil_ratDiv total limit hpos]
  · intro h0
    show (if 0 < limit then Int.fdiv (total + limit - 1) limit else 1) = 0
    rw [if_pos hpos, h0, fdiv_pred_eq_ceil_ratDiv 0 limit hpos]
    simp
  · intro hlt
    show (if 0 < limit then Int.fdiv skip limit + 1 else 1) = 1
    rw [if_pos hpos, Int.fdiv_eq_ediv skip hpos.le,
        Int.ediv_eq_zero_of_lt hskip hlt, zero_add]
  · intro t s l hl
    have hneg : ¬ 0 < l := not_lt.mpr hl
    constructor
    · show (if 0 < l then Int.fdiv (t + l - 1) l else 1) = 1
      rw [if_neg hneg]
    · show (if 0 < l then Int.fdiv s l + 1 else 1) = 1
      rw [if_neg hneg]

/-- Witness for C1 at total = 21, skip = 15, limit = 10: page 2,
pageSize 10, total 21, totalPages 3 = ⌈21/10⌉. -/
theorem calculate_page_info_spec_witness :
    (calculate_page_info 21 15 10).page = ⌊(15 : ℚ) / (10 : ℚ)⌋ + 1
    ∧ (calculate_page_info 21 15 10).total_pages = ⌈(21 : ℚ) / (10 : ℚ)⌉
    ∧ (calculate_page_info 5 0 10).page = 1
    ∧ (calculate_page_info 5 0 (-3)).total_pages = 1 := by
  have h := calculate_page_info_spec 21 15 10 (by norm_num) (by norm_num) (by norm_num) (by norm_num)
  have h' := calculate_page_info_spec 5 0 10 (by norm_num) (by norm_num) (by norm_num) (by norm_num)
  exact ⟨h.1, h.2.2.2.1, h'.2.2.2.2.2.1 (by norm_num), (h.2.2.2.2.2.2 5 0 (-3) (by norm_num)).1⟩

/-- Mongo `find_one(filter)`: the first matching document in collection
order. -/
def find_one (st : Store) (p : Doc → Bool) : Option Doc :=
  List.find? p st

/-- Generic single-document write: apply `f` to the first document matching
`p` (Mongo `update_one`; `f` is the `$set` / `$unset` payload). -/
def update_first : Store → (Doc → Bool) → (Doc → Doc) → Store
  | [], _, _ => []
  | d :: rest, p, f => if p d then f d :: rest else d :: update_first rest p f

/-- Mongo `delete_one(filter)`: remove the first matching document; the
second component is `deleted_count`. -/
def delete_one : Store → (Doc → Bool) → Store × Nat
  | [], _ => ([], 0)
  | d :: rest, p =>
    if p d then (rest, 1)
    else
      let r := delete_one rest p
      (d :: r.1, r.2)

/-- Mongo `count_documents(filter)`. -/
def count_documents (st : Store) (p : Doc → Bool) : Nat :=
  (List.filter p st).length

/-- The id-equality filter the services build from a validated id string. -/
def byId (oid : String) (d : Doc) : Bool :=
  Doc.lookup d "_id" == some (Value.vOid oid)

/-- The id-equality filter built from a document in hand, as in
`update_one(\x7b"_id": user["_id"]\x7d, ...)`.  The `isSome` guard reflects
that the code reads `u["_id"]`, which exists on every stored document. -/
def byIdOf (u : Doc) (d : Doc) : Bool :=
  (Doc.lookup u "_id").isSome && Doc.lookup d "_id" == Doc.lookup u "_id"

/-- The service-level exceptions of src/app/core/exceptions.py that the
content/contact services raise. -/
inductive ServiceError where
  | invalidObjectID (msg : String)
  | contentNotFound (msg : String)
  | contactNotFound (msg : String)
  | databaseError (msg : String)
deriving DecidableEq

/-- One condition of a Mongo query document built by the services. -/
inductive QCond where
  | eqF (field : String) (v : Value)
  | regexI (field : String) (pattern : String)
deriving DecidableEq

/-- The query documents the content service builds: top-level equality
conditions plus an optional `$or` list (the three text-search clauses). -/
structure MongoQuery where
  conds : List QCond
  orConds : Option (List QCond)
deriving DecidableEq

/-- Whether `pat` occurs as a contiguous sublist of `hay`. -/
def isInfixL (pat : List Char) : List Char → Bool
  | [] => pat.isEmpty
  | c :: rest => List.isPrefixOf pat (c :: rest) || isInfixL pat rest

/-- Case-insensitive substring occurrence of `pattern` in `hay`. -/
def containsCI (pattern hay : String) : Bool :=
  isInfixL (lowerString pattern).data (lowerString hay).data

/-- Modelled from the spec: evaluation of one query condition by the Record
Store Adapter (MongoDB, an external collaborator not in src/).  Per spec §6
the adapter supports equality filters and "a logical-OR list of
regex/substring filters"; per §4.3 a `\x7b"$regex": q, "$options": "i"\x7d`
clause matches when the query occurs case-insensitively as a substring of
the (string) field value; a missing or non-string field does not match. -/
def evalCond (d : Doc) : QCond → Bool
  | QCond.eqF field v => Doc.lookup d field == some v
  | QCond.regexI field pattern =>
    match Doc.lookup d field with
    | some (Value.vStr s) => containsCI pattern s
    | _ => false

/-- Modelled from the spec: a document matches a query document when it
satisfies every top-level equality condition and, if a `$or` list is
present, at least one of its clauses. -/
def evalQuery (q : MongoQuery) (d : Doc) : Bool :=
  List.all q.conds (evalCond d) &&
    (match q.orConds with
     | none => true
     | some cs => List.any cs (evalCond d))

/-- The three `$or` clauses built for a text search (src/app/services/
content.py, `get_all_contents` / `get_contents_by_filter`). -/
def contentSearchOr (search : String) : List QCond :=
  [QCond.regexI "title" search, QCond.regexI "body" search,
   QCond.regexI "summary" search]

/-- The query of `get_all_contents`: empty, plus the `$or` list when
`search` is truthy (neither `None` nor the empty string). -/
def allContentsQuery : Option String → MongoQuery
  | none => { conds := [], orConds := none }
  | some s =>
    if s = "" then { conds := [], orConds := none }
    else { conds := [], orConds := some (contentSearchOr s) }

/-- The query of `get_contents_by_filter`: category and type equality, plus
the `$or` list when `search` is truthy. -/
def filterContentsQuery (category type : String) : Option String → MongoQuery
  | none =>
    { conds := [QCond.eqF "category" (Value.vStr category),
                QCond.eqF "type" (Value.vStr type)]
      orConds := none }
  | some s =>
    if s = "" then
      { conds := [QCond.eqF "category" (Value.vStr category),
                  QCond.eqF "type" (Value.vStr type)]
        orConds := none }
    else
      { conds := [QCond.eqF "category" (Value.vStr category),
                  QCond.eqF "type" (Value.vStr type)]
        orConds := some (contentSearchOr s) }

/-- The sort key for `.sort("date", -1)`; the backend stores dates as
timestamps, modelled as `vNat`. -/
def dateKey (d : Doc) : Nat :=
  match Doc.lookup d "date" with
  | some (Value.vNat n) => n
  | _ => 0

/-- The `.sort("date", -1)` step: date-descending order (Mongo sorts the matched set
before `skip`/`limit` are applied, whatever the call order). -/
def sortByDateDesc (l : List Doc) : List Doc :=
  List.insertionSort (fun a b => dateKey b ≤ dateKey a) l

/-- The paged envelope returned by the list endpoints. -/
structure ListResponse where
  page : Int
  page_size : Int
  total : Int
  total_pages : Int
  items : List Doc
deriving DecidableEq

/-- Embedding of `create_list_response` (src/app/utils/helpers.py). -/
def create_list_response (items : List Doc) (total skip limit : Int) : ListResponse :=
  { page := (calculate_page_info total skip limit).page
    page_size := (calculate_page_info total skip limit).page_size
    total := (calculate_page_info total skip limit).total
    total_pages := (calculate_page_info total skip limit).total_pages
    items := items }

/-- Embedding of `ContentService.get_all_contents` (src/app/services/
content.py).  Callers reach it through `paginate_query`, so skip ≥ 0 and
limit ∈ [1,100]; `.toNat` is exact there (and Mongo's `limit(0)` special
case is unreachable). -/
def get_all_contents (store : Store) (skip limit : Int) (search : Option String) :
    ListResponse :=
  let query := allContentsQuery search
  let total := count_documents store (evalQuery query)
  let items := List.map (fun d => format_content_response (some d))
    (List.take limit.toNat (List.drop skip.toNat
      (sortByDateDesc (List.filter (evalQuery query) store))))
  create_list_response items (Int.ofNat total) skip limit

/-- Embedding of `ContentService.get_contents_by_filter` (src/app/services/
content.py). -/
def get_contents_by_filter (store : Store) (category type : String)
    (skip limit : Int) (search : Option String) : ListResponse :=
  let query := filterContentsQuery category type search
  let total := count_documents store (evalQuery query)
  let items := List.map (fun d => format_content_response (some d))
    (List.take limit.toNat (List.drop skip.toNat
      (sortByDateDesc (List.filter (evalQuery query) store))))
  create_list_response items (Int.ofNat total) skip limit

/-- Embedding of `ContentService.get_content_by_id` (src/app/services/
content.py). -/
def get_content_by_id (store : Store) (id : String) : Except ServiceError Doc :=
  if ¬ is_valid_object_id id then
    Except.error (ServiceError.invalidObjectID ("Invalid content ID format: " ++ id))
  else
    match find_one store (byId (objectIdOf id)) with
    | none => Except.error (ServiceError.contentNotFound ("Content not found with ID: " ++ id))
    | some document => Except.ok (format_content_response (some document))

/-- The dict comprehension of `update_content` that drops `None`-valued
fields from the partial update, keeping the original field order. -/
def dropNulls : Doc → Doc
  | [] => []
  | (k, v) :: rest =>
    if v = Value.vNull then dropNulls rest else (k, v) :: dropNulls rest

/-- Embedding of `ContentService.update_content` (src/app/services/
content.py); `now` is `datetime.utcnow()` at write time.  Returns the
formatted response document together with the collection after the call. -/
def update_content (store : Store) (id : String) (update_data : Doc) (now : Value) :
    Except ServiceError (Doc × Store) :=
  if ¬ is_valid_object_id id then
    Except.error (ServiceError.invalidObjectID ("Invalid content ID format: " ++ id))
  else
    match find_one store (byId (objectIdOf id)) with
    | none => Except.error (ServiceError.contentNotFound ("Content not found with ID: " ++ id))
    | some _existing =>
      let ud := dropNulls update_data
      let store' :=
        if ud = ([] : Doc) then store
        else update_first store (byId (objectIdOf id))
          (fun d => Doc.merge d (Doc.set ud "updated_at" now))
      Except.ok (format_content_response (find_one store' (byId (objectIdOf id))), store')

/-- Embedding of `ContentService.delete_content` (src/app/services/
content.py).  Returns `deleted_count > 0` together with the collection
after the call. -/
def delete_content (store : Store) (id : String) : Except ServiceError (Bool × Store) :=
  if ¬ is_valid_object_id id then
    Except.error (ServiceError.invalidObjectID ("Invalid content ID format: " ++ id))
  else
    let r := delete_one store (byId (objectIdOf id))
    Except.ok (decide (0 < r.2), r.1)

/-- The `"status" ==` filter used by the contact statistics. -/
def statusIs (s : String) (d : Doc) : Bool :=
  Doc.lookup d "status" == some (Value.vStr s)

/-- The five counts returned by `get_contact_stats`. -/
structure ContactStats where
  total : Nat
  new : Nat
  reviewed : Nat
  replied : Nat
  archived : Nat
deriving DecidableEq

/-- Embedding of `ContactService.get_contact_stats` (src/app/services/
contact.py): five independent `count_documents` calls over one collection
state (the claim assumes a static dataset, so one `Store` argument). -/
def get_contact_stats (contacts : Store) : ContactStats :=
  { total := count_documents contacts (fun _ => true)
    new := count_documents contacts (statusIs "new")
    reviewed := count_documents contacts (statusIs "reviewed")
    replied := count_documents contacts (statusIs "replied")
    archived := count_documents contacts (statusIs "archived") }

/-- The error response FastAPI sends for an `HTTPException`: status code
plus detail string. -/
structure HTTPError where
  status_code : Nat
  detail : String
deriving DecidableEq

/-- The public user view inside a login response. -/
structure LoginUserView where
  id : String
  email : String
  name : String
  is_admin : Bool
deriving DecidableEq

/-- The login response body (src/app/schemas/auth.py). -/
structure LoginResult where
  access_token : String
  token_type : String
  user : LoginUserView
deriving DecidableEq

/-- Python `d.get(k, dflt)` for string-valued fields. -/
def pyGetStr (d : Doc) (k dflt : String) : String :=
  match Doc.lookup d k with
  | some (Value.vStr s) => s
  | _ => dflt

/-- Python `d.get(k, dflt)` for boolean-valued fields. -/
def pyGetBool (d : Doc) (k : String) (dflt : Bool) : Bool :=
  match Doc.lookup d k with
  | some (Value.vBool b) => b
  | _ => dflt

/-- Python `str.replace`: replace every non-overlapping occurrence of
`pat`, left to right (for the empty `pat` the code never calls this; we
return the input unchanged there). -/
def replaceList (pat rep : List Char) : List Char → List Char
  | [] => []
  | c :: rest =>
    if h : pat ≠ [] ∧ List.isPrefixOf pat (c :: rest) then
      rep ++ replaceList pat rep (List.drop pat.length (c :: rest))
    else
      c :: replaceList pat rep rest
termination_by l => l.length
decreasing_by
  · simp only [List.length_drop, List.length_cons]
    have hpat : 0 < pat.length := List.length_pos.mpr h.1
    omega
  · simp only [List.length_cons]
    omega

/-- Python `s.replace(pat, rep)` on strings. -/
def string_replace (s pat rep : String) : String :=
  String.mk (replaceList pat.data rep.data s.data)

/-- Python `s.startswith(pre)`. -/
def string_startswith (s pre : String) : Bool :=
  List.isPrefixOf pre.data s.data

/-- The `\x7b"email": email\x7d` filter of `login`. -/
def byEmail (email : String) (d : Doc) : Bool :=
  Doc.lookup d "email" == some (Value.vStr email)

/-- The `\x7b"token": token\x7d` filter of `get_current_user`. -/
def byToken (token : String) (d : Doc) : Bool :=
  Doc.lookup d "token" == some (Value.vStr token)

/-- The `$set` payload of `login`'s token write: store the fresh token and
`last_login`. -/
def withToken (token : String) (now : Value) (d : Doc) : Doc :=
  Doc.set (Doc.set d "token" (Value.vStr token)) "last_login" now

/-- The `LoginResponse` body built by `login` for user `u` and token
`token`. -/
def loginResultOf (u : Doc) (token : String) : LoginResult :=
  { access_token := token
    token_type := "bearer"
    user :=
      { id := pyStr ((Doc.lookup u "_id").getD Value.vNull)
        email := pyStr ((Doc.lookup u "email").getD Value.vNull)
        name := pyGetStr u "name" ""
        is_admin := pyGetBool u "is_admin" false } }

/-- Embedding of `login` (src/app/api/auth.py).  `hash` abstracts
`hash_password` (SHA-256, a fixed one-way digest treated as given per the
spec); `token` is the fresh `secrets.token_urlsafe(32)` value and `now` is
`datetime.utcnow()`.  Returns the response and the users collection after
the token write. -/
def login (hash : String → String) (users : Store) (email password token : String)
    (now : Value) : Except HTTPError (LoginResult × Store) :=
  match find_one users (byEmail email) with
  | none => Except.error { status_code := 401, detail := "Invalid email or password" }
  | some user =>
    if ¬ (Doc.lookup user "password" == some (Value.vStr (hash password))) then
      Except.error { status_code := 401, detail := "Invalid email or password" }
    else
      Except.ok
        (loginResultOf user token,
         update_first users (byIdOf user) (withToken token now))

/-- Embedding of `get_current_user` (src/app/api/auth.py): resolve the
`Authorization` header (if any) to the stored user holding that token. -/
def get_current_user (users : Store) (authorization : Option String) :
    Except HTTPError Doc :=
  match authorization with
  | none => Except.error { status_code := 401, detail := "Missing or invalid authorization header" }
  | some auth =>
    if ¬ string_startswith auth "Bearer " then
      Except.error { status_code := 401, detail := "Missing or invalid authorization header" }
    else
      match find_one users (byToken (string_replace auth "Bearer " "")) with
      | none => Except.error { status_code := 401, detail := "Invalid authentication token" }
      | some user => Except.ok user

/-- Embedding of `logout` (src/app/api/auth.py): `$unset` the token field
of the resolved user. -/
def logout (users : Store) (current_user : Doc) : Store :=
  update_first users (byIdOf current_user) (fun d => Doc.erase d "token")

/-! ### Dictionary and store lemmas -/

theorem Doc.lookup_set_self (d : Doc) (k : String) (v : Value) :
    Doc.lookup (Doc.set d k v) k = some v := by
  induction d with
  | nil => simp [Doc.set, Doc.lookup]
  | cons p rest ih =>
    obtain ⟨k0, v0⟩ := p
    by_cases h : k0 = k
    · simp [Doc.set, h, Doc.lookup]
    · simp [Doc.set, h, Doc.lookup, ih]

theorem Doc.lookup_set_ne (d : Doc) (k k' : String) (v : Value) (h : k' ≠ k) :
    Doc.lookup (Doc.set d k v) k' = Doc.lookup d k' := by
  have hne : ¬ k = k' := fun hh => h hh.symm
  induction d with
  | nil => simp [Doc.set, Doc.lookup, hne]
  | cons p rest ih =>
    obtain ⟨k0, v0⟩ := p
    by_cases h0 : k0 = k
    · subst h0
      simp [Doc.set, Doc.lookup, hne]
    · simp only [Doc.set, if_neg h0, Doc.lookup]
      by_cases h1 : k0 = k'
      · simp [h1]
      · simp [h1, ih]

theorem Doc.lookup_erase_self (d : Doc) (k : String) :
    Doc.lookup (Doc.erase d k) k = none := by
  induction d with
  | nil => simp [Doc.erase, Doc.lookup]
  | cons p rest ih =>
    obtain ⟨k0, v0⟩ := p
    by_cases h : k0 = k
    · simpa [Doc.erase, h] using ih
    · simpa [Doc.erase, h, Doc.lookup] using ih

theorem Doc.lookup_erase_ne (d : Doc) (k k' : String) (h : k' ≠ k) :
    Doc.lookup (Doc.erase d k) k' = Doc.lookup d k' := by
  have hne : ¬ k = k' := fun hh => h hh.symm
  induction d with
  | nil => simp [Doc.erase]
  | cons p rest ih =>
    obtain ⟨k0, v0⟩ := p
    by_cases h0 : k0 = k
    · subst h0
      simp [Doc.erase, Doc.lookup, hne, ih]
    · simp only [Doc.erase, if_neg h0, Doc.lookup]
      by_cases h1 : k0 = k'
      · simp [h1]
      · simp [h1, ih]

theorem Doc.lookup_eq_none_iff (d : Doc) (k : String) :
    Doc.lookup d k = none ↔ k ∉ List.map Prod.fst d := by
  induction d with
  | nil => simp [Doc.lookup]
  | cons p rest ih =>
    obtain ⟨k0, v0⟩ := p
    simp only [Doc.lookup, List.map_cons, List.mem_cons]
    by_cases h : k0 = k
    · simp [h]
    · simp only [if_neg h, ih]
      constructor
      · intro hk
        push_neg
        exact ⟨fun hh => h hh.symm, hk⟩
      · intro hk
        push_neg at hk
        exact hk.2

theorem Doc.lookup_merge_none (d upd : Doc) (k : String)
    (h : Doc.lookup upd k = none) :
    Doc.lookup (Doc.merge d upd) k = Doc.lookup d k := by
  induction upd generalizing d with
  | nil => simp [Doc.merge]
  | cons p rest ih =>
    obtain ⟨k1, v1⟩ := p
    simp only [Doc.lookup] at h
    by_cases h1 : k1 = k
    · simp [h1] at h
    · simp only [if_neg h1] at h
      simp only [Doc.merge]
      rw [ih _ h, Doc.lookup_set_ne _ _ _ _ (fun hh => h1 hh.symm)]

theorem Doc.keys_set (d : Doc) (k : String) (v : Value) :
    List.map Prod.fst (Doc.set d k v) = List.map Prod.fst d
    ∨ List.map Prod.fst (Doc.set d k v) = List.map Prod.fst d ++ [k] := by
  induction d with
  | nil => simp [Doc.set]
  | cons p rest ih =>
    obtain ⟨k0, v0⟩ := p
    by_cases h : k0 = k
    · left
      simp [Doc.set, h]
    · rcases ih with ih | ih
      · left
        simp [Doc.set, h, ih]
      · right
        simp [Doc.set, h, ih]

theorem Doc.lookup_merge_some (d upd : Doc) (k : String) (v : Value)
    (hnd : (List.map Prod.fst upd).Nodup)
    (h : Doc.lookup upd k = some v) :
    Doc.lookup (Doc.merge d upd) k = some v := by
  induction upd generalizing d with
  | nil => simp [Doc.lookup] at h
  | cons p rest ih =>
    obtain ⟨k1, v1⟩ := p
    simp only [List.map_cons, List.nodup_cons] at hnd
    by_cases h1 : k1 = k
    · subst h1
      have h' : v1 = v := by simpa [Doc.lookup] using h
      subst h'
      have hrest : Doc.lookup rest k1 = none :=
        (Doc.lookup_eq_none_iff rest k1).mpr hnd.1
      simp only [Doc.merge]
      rw [Doc.lookup_merge_none _ _ _ hrest, Doc.lookup_set_self]
    · simp only [Doc.lookup, if_neg h1] at h
      simp only [Doc.merge]
      exact ih _ hnd.2 h

/-- The function `List.find?` splits the list at the first hit. -/
theorem find?_split {α : Type} {p : α → Bool} {l : List α} {u : α}
    (h : List.find? p l = some u) :
    ∃ pre post, l = pre ++ u :: post ∧ (∀ d ∈ pre, p d = false) ∧ p u = true := by
  induction l with
  | nil => simp [List.find?] at h
  | cons a rest ih =>
    by_cases ha : p a = true
    · rw [List.find?_cons_of_pos _ ha] at h
      obtain rfl : a = u := Option.some.inj h
      exact ⟨[], rest, rfl, by simp, ha⟩
    · have ha' : p a = false := by simpa using ha
      rw [List.find?_cons_of_neg _ ha] at h
      obtain ⟨pre, post, hl, hpre, hu⟩ := ih h
      refine ⟨a :: pre, post, by rw [hl, List.cons_append], ?_, hu⟩
      intro d hd
      rcases List.mem_cons.mp hd with rfl | hd
      · exact ha'
      · exact hpre d hd

theorem find?_append_of_false {α : Type} {p : α → Bool} {pre l : List α}
    (h : ∀ d ∈ pre, p d = false) :
    List.find? p (pre ++ l) = List.find? p l := by
  induction pre with
  | nil => rfl
  | cons a rest ih =>
    have ha := h a (by simp)
    simp only [List.cons_append, List.find?, ha]
    exact ih (fun d hd => h d (by simp [hd]))

theorem update_first_append (pre : Store) (u : Doc) (post : Store)
    (p : Doc → Bool) (f : Doc → Doc)
    (hpre : ∀ d ∈ pre, p d = false) (hu : p u = true) :
    update_first (pre ++ u :: post) p f = pre ++ f u :: post := by
  induction pre with
  | nil => simp [update_first, hu]
  | cons a rest ih =>
    have ha := hpre a (by simp)
    simp only [List.cons_append, update_first, ha]
    simp only [Bool.false_eq_true, if_false, List.cons.injEq, true_and]
    exact ih (fun d hd => hpre d (by simp [hd]))

theorem delete_one_pos_iff (st : Store) (p : Doc → Bool) :
    0 < (delete_one st p).2 ↔ ∃ d ∈ st, p d = true := by
  induction st with
  | nil => simp [delete_one]
  | cons a rest ih =>
    by_cases ha : p a
    · simp [delete_one, ha]
    · simp only [Bool.not_eq_true] at ha
      simp [delete_one, ha, ih]

/-! ### Service unfolding lemmas -/

theorem get_content_by_id_invalid (store : Store) (id : String)
    (hv : is_valid_object_id id = false) :
    get_content_by_id store id =
      Except.error (ServiceError.invalidObjectID ("Invalid content ID format: " ++ id)) := by
  unfold get_content_by_id
  rw [if_pos (by simp [hv])]

theorem get_content_by_id_found (store : Store) (id : String) (u : Doc)
    (hv : is_valid_object_id id = true)
    (hu : find_one store (byId (objectIdOf id)) = some u) :
    get_content_by_id store id = Except.ok (format_content_response (some u)) := by
  unfold get_content_by_id
  rw [if_neg (by simp [hv]), hu]

theorem get_content_by_id_missing (store : Store) (id : String)
    (hv : is_valid_object_id id = true)
    (hn : find_one store (byId (objectIdOf id)) = none) :
    get_content_by_id store id =
      Except.error (ServiceError.contentNotFound ("Content not found with ID: " ++ id)) := by
  unfold get_content_by_id
  rw [if_neg (by simp [hv]), hn]

theorem byId_true_iff (oid : String) (d : Doc) :
    byId oid d = true ↔ Doc.lookup d "_id" = some (Value.vOid oid) := by
  simp [byId]

theorem delete_one_of_none (st : Store) (p : Doc → Bool)
    (h : ∀ d ∈ st, p d = false) :
    delete_one st p = (st, 0) := by
  induction st with
  | nil => rfl
  | cons a rest ih =>
    have ha := h a (by simp)
    simp only [delete_one, ha]
    simp [ih (fun d hd => h d (by simp [hd]))]

/-! ### C10 — response formatter -/

/-- C10: for a document containing an internal `_id` field the formatter
removes `_id`, adds `id` holding the string rendering of that identifier,
and leaves every other field and value unchanged; a missing (`None`) or
empty input yields the empty document instead of failing; the contact
formatter behaves identically. -/
theorem format_response_spec (d : Doc) (v : Value)
    (h : Doc.lookup d "_id" = some v) :
    Doc.lookup (format_content_response (some d)) "id" = some (Value.vStr (pyStr v))
    ∧ Doc.lookup (format_content_response (some d)) "_id" = none
    ∧ (∀ k, k ≠ "_id" → k ≠ "id" →
        Doc.lookup (format_content_response (some d)) k = Doc.lookup d k)
    ∧ format_content_response none = ([] : Doc)
    ∧ format_content_response (some ([] : Doc)) = ([] : Doc)
    ∧ format_contact_response (some d) = format_content_response (some d)
    ∧ format_contact_response none = ([] : Doc) := by
  have hne : ¬ d = ([] : Doc) := by
    intro hd
    rw [hd] at h
    simp [Doc.lookup] at h
  have hfc : format_content_response (some d)
      = Doc.set (Doc.erase d "_id") "id" (Value.vStr (pyStr v)) := by
    simp [format_content_response, hne, h]
  refine ⟨?_, ?_, ?_, rfl, rfl, ?_, rfl⟩
  · rw [hfc, Doc.lookup_set_self]
  · rw [hfc, Doc.lookup_set_ne _ _ _ _ (by decide), Doc.lookup_erase_self]
  · intro k hk1 hk2
    rw [hfc, Doc.lookup_set_ne _ _ _ _ hk2, Doc.lookup_erase_ne _ _ _ hk1]
  · simp [format_contact_response, format_content_response, hne, h]

/-- C10 witness: a two-field content document. -/
theorem format_response_spec_witness :
    Doc.lookup (format_content_response
        (some [("_id", Value.vOid "aaaaaaaaaaaaaaaaaaaaaaaa"), ("title", Value.vStr "T")]))
        "id" = some (Value.vStr "aaaaaaaaaaaaaaaaaaaaaaaa")
    ∧ Doc.lookup (format_content_response
        (some [("_id", Value.vOid "aaaaaaaaaaaaaaaaaaaaaaaa"), ("title", Value.vStr "T")]))
        "_id" = none
    ∧ Doc.lookup (format_content_response
        (some [("_id", Value.vOid "aaaaaaaaaaaaaaaaaaaaaaaa"), ("title", Value.vStr "T")]))
        "title" = some (Value.vStr "T") :=
  have h := format_response_spec
    [("_id", Value.vOid "aaaaaaaaaaaaaaaaaaaaaaaa"), ("title", Value.vStr "T")]
    (Value.vOid "aaaaaaaaaaaaaaaaaaaaaaaa") rfl
  ⟨h.1, h.2.1, h.2.2.1 "title" (by decide) (by decide)⟩

/-! ### C3 — getById error contract -/

/-- C3: `get_content_by_id` fails with `InvalidObjectID` exactly when the
id fails the codec check (no store access is involved in that branch: the
result is the same for every store); for a well-formed id it fails with
`ContentNotFound` exactly when no stored document carries that identifier,
and otherwise returns the formatted matching document. -/
theorem get_content_by_id_spec (store : Store) (id : String) :
    ((∃ m, get_content_by_id store id = Except.error (ServiceError.invalidObjectID m)) ↔
        is_valid_object_id id = false)
    ∧ (is_valid_object_id id = true →
        ((∃ m, get_content_by_id store id = Except.error (ServiceError.contentNotFound m)) ↔
            ∀ d ∈ store, ¬ Doc.lookup d "_id" = some (Value.vOid (objectIdOf id)))
        ∧ (∀ u, find_one store (byId (objectIdOf id)) = some u →
            get_content_by_id store id = Except.ok (format_content_response (some u)))) := by
  by_cases hv : is_valid_object_id id = true
  · refine ⟨⟨?_, ?_⟩, fun _ => ⟨⟨?_, ?_⟩, fun u hu => get_content_by_id_found store id u hv hu⟩⟩
    · rintro ⟨m, hm⟩
      exfalso
      cases hfind : find_one store (byId (objectIdOf id)) with
      | none => rw [get_content_by_id_missing store id hv hfind] at hm; exact absurd hm (by simp)
      | some u => rw [get_content_by_id_found store id u hv hfind] at hm; exact absurd hm (by simp)
    · intro hf
      rw [hv] at hf
      exact absurd hf (by simp)
    · rintro ⟨m, hm⟩
      intro d hd
      intro heq
      cases hfind : find_one store (byId (objectIdOf id)) with
      | none =>
        unfold find_one at hfind
        rw [List.find?_eq_none] at hfind
        exact hfind d hd (by simp [byId, heq])
      | some u => rw [get_content_by_id_found store id u hv hfind] at hm; exact absurd hm (by simp)
    · intro hall
      refine ⟨"Content not found with ID: " ++ id, ?_⟩
      refine get_content_by_id_missing store id hv ?_
      unfold find_one
      rw [List.find?_eq_none]
      intro d hd
      simp only [byId, beq_iff_eq]
      exact fun heq => hall d hd (by simpa using heq)
  · have hv' : is_valid_object_id id = false := by simpa using hv
    refine ⟨⟨fun _ => hv', ?_⟩, fun ht => absurd ht (by simp [hv'])⟩
    intro _
    exact ⟨"Invalid content ID format: " ++ id, get_content_by_id_invalid store id hv'⟩

/-- C3 witness: a malformed id and a well-formed id against a one-document
store (hit and miss). -/
theorem get_content_by_id_spec_witness :
    get_content_by_id [[("_id", Value.vOid "aaaaaaaaaaaaaaaaaaaaaaaa")]] "not-an-id"
      = Except.error (ServiceError.invalidObjectID "Invalid content ID format: not-an-id")
    ∧ get_content_by_id [[("_id", Value.vOid "aaaaaaaaaaaaaaaaaaaaaaaa")]]
        "aaaaaaaaaaaaaaaaaaaaaaaa"
      = Except.ok (format_content_response (some [("_id", Value.vOid "aaaaaaaaaaaaaaaaaaaaaaaa")]))
    ∧ get_content_by_id [[("_id", Value.vOid "aaaaaaaaaaaaaaaaaaaaaaaa")]]
        "bbbbbbbbbbbbbbbbbbbbbbbb"
      = Except.error (ServiceError.contentNotFound
          "Content not found with ID: bbbbbbbbbbbbbbbbbbbbbbbb") := by
  refine ⟨?_, ?_, ?_⟩
  · exact get_content_by_id_invalid _ _ (by decide)
  · exact ((get_content_by_id_spec [[("_id", Value.vOid "aaaaaaaaaaaaaaaaaaaaaaaa")]]
      "aaaaaaaaaaaaaaaaaaaaaaaa").2 (by decide)).2
      [("_id", Value.vOid "aaaaaaaaaaaaaaaaaaaaaaaa")] (by decide)
  · exact get_content_by_id_missing _ _ (by decide) (by decide)

/-! ### C8 — delete contract -/

/-- C8: `delete_content` fails with `InvalidObjectID` exactly on a
malformed id; for a well-formed id it returns a boolean that is true iff a
document with that identifier was in the store (and got removed), and in
particular a well-formed id with no match returns `false` with the store
untouched, not an error. -/
theorem delete_content_spec (store : Store) (id : String) :
    (is_valid_object_id id = false →
        delete_content store id =
          Except.error (ServiceError.invalidObjectID ("Invalid content ID format: " ++ id)))
    ∧ (is_valid_object_id id = true →
        delete_content store id =
          Except.ok (decide (0 < (delete_one store (byId (objectIdOf id))).2),
                     (delete_one store (byId (objectIdOf id))).1)
        ∧ (decide (0 < (delete_one store (byId (objectIdOf id))).2) = true ↔
            ∃ d ∈ store, Doc.lookup d "_id" = some (Value.vOid (objectIdOf id)))
        ∧ ((∀ d ∈ store, ¬ Doc.lookup d "_id" = some (Value.vOid (objectIdOf id))) →
            delete_content store id = Except.ok (false, store))) := by
  constructor
  · intro hv
    unfold delete_content
    rw [if_pos (by simp [hv])]
  · intro hv
    refine ⟨?_, ?_, ?_⟩
    · unfold delete_content
      rw [if_neg (by simp [hv])]
    · rw [decide_eq_true_iff, delete_one_pos_iff]
      constructor
      · rintro ⟨d, hd, hp⟩
        exact ⟨d, hd, (byId_true_iff _ d).mp hp⟩
      · rintro ⟨d, hd, hp⟩
        exact ⟨d, hd, (byId_true_iff _ d).mpr hp⟩
    · intro hall
      have hnone : ∀ d ∈ store, byId (objectIdOf id) d = false := by
        intro d hd
        have := hall d hd
        simp [byId]
        exact fun heq => absurd heq this
      unfold delete_content
      rw [if_neg (by simp [hv]), delete_one_of_none store _ hnone]
      simp

/-- C8 witness: deleting a present id returns true; a well-formed missing
id returns false without error; a malformed id errors. -/
theorem delete_content_spec_witness :
    delete_content [[("_id", Value.vOid "aaaaaaaaaaaaaaaaaaaaaaaa")]] "not-an-id"
      = Except.error (ServiceError.invalidObjectID "Invalid content ID format: not-an-id")
    ∧ delete_content [[("_id", Value.vOid "aaaaaaaaaaaaaaaaaaaaaaaa")]]
        "bbbbbbbbbbbbbbbbbbbbbbbb" = Except.ok (false, [[("_id", Value.vOid "aaaaaaaaaaaaaaaaaaaaaaaa")]])
    ∧ delete_content [[("_id", Value.vOid "aaaaaaaaaaaaaaaaaaaaaaaa")]]
        "aaaaaaaaaaaaaaaaaaaaaaaa" = Except.ok (true, ([] : Store)) := by
  refine ⟨?_, ?_, ?_⟩
  · exact (delete_content_spec [[("_id", Value.vOid "aaaaaaaaaaaaaaaaaaaaaaaa")]]
      "not-an-id").1 (by decide)
  · exact ((delete_content_spec [[("_id", Value.vOid "aaaaaaaaaaaaaaaaaaaaaaaa")]]
      "bbbbbbbbbbbbbbbbbbbbbbbb").2 (by decide)).2.2 (by decide)
  · have h := ((delete_content_spec [[("_id", Value.vOid "aaaaaaaaaaaaaaaaaaaaaaaa")]]
      "aaaaaaaaaaaaaaaaaaaaaaaa").2 (by decide)).1
    rw [h]
    rfl

/-! ### C9 — contact statistics -/

theorem length_filter_status_sum (contacts : Store)
    (h : ∀ d ∈ contacts,
        Doc.lookup d "status" = some (Value.vStr "new")
        ∨ Doc.lookup d "status" = some (Value.vStr "reviewed")
        ∨ Doc.lookup d "status" = some (Value.vStr "replied")
        ∨ Doc.lookup d "status" = some (Value.vStr "archived")) :
    contacts.length =
      (List.filter (statusIs "new") contacts).length
      + (List.filter (statusIs "reviewed") contacts).length
      + (List.filter (statusIs "replied") contacts).length
      + (List.filter (statusIs "archived") contacts).length := by
  induction contacts with
  | nil => rfl
  | cons d rest ih =>
    have hd := h d (by simp)
    have ihr := ih (fun x hx => h x (by simp [hx]))
    rcases hd with hd | hd | hd | hd <;>
      · simp only [List.filter_cons, statusIs, hd, beq_iff_eq, List.length_cons]
        simp
        omega

/-- C9: on a static contact collection whose statuses all lie in
\x7bnew, reviewed, replied, archived\x7d, `get_contact_stats` returns the
collection size as `total`, the per-status filter counts for the four
status fields, and these satisfy total = new + reviewed + replied +
archived. -/
theorem get_contact_stats_spec (contacts : Store)
    (h : ∀ d ∈ contacts,
        Doc.lookup d "status" = some (Value.vStr "new")
        ∨ Doc.lookup d "status" = some (Value.vStr "reviewed")
        ∨ Doc.lookup d "status" = some (Value.vStr "replied")
        ∨ Doc.lookup d "status" = some (Value.vStr "archived")) :
    (get_contact_stats contacts).total = contacts.length
    ∧ (get_contact_stats contacts).new = (List.filter (statusIs "new") contacts).length
    ∧ (get_contact_stats contacts).reviewed = (List.filter (statusIs "reviewed") contacts).length
    ∧ (get_contact_stats contacts).replied = (List.filter (statusIs "replied") contacts).length
    ∧ (get_contact_stats contacts).archived = (List.filter (statusIs "archived") contacts).length
    ∧ (get_contact_stats contacts).total =
        (get_contact_stats contacts).new + (get_contact_stats contacts).reviewed
        + (get_contact_stats contacts).replied + (get_contact_stats contacts).archived := by
  refine ⟨?_, rfl, rfl, rfl, rfl, ?_⟩
  · show count_documents contacts (fun _ => true) = contacts.length
    simp [count_documents]
  · show count_documents contacts (fun _ => true) = _
    have : count_documents contacts (fun _ => true) = contacts.length := by
      simp [count_documents]
    rw [this]
    exact length_filter_status_sum contacts h

/-- The 4-contact fixture of spec §8 item 9: statuses new, new, reviewed,
archived. -/
def contactsFixture : Store :=
  [[("status", Value.vStr "new")], [("status", Value.vStr "new")],
   [("status", Value.vStr "reviewed")], [("status", Value.vStr "archived")]]

/-- C9 witness: the spec's fixture gives total 4 = 2 + 1 + 0 + 1. -/
theorem get_contact_stats_spec_witness :
    (get_contact_stats contactsFixture).total =
      (get_contact_stats contactsFixture).new + (get_contact_stats contactsFixture).reviewed
      + (get_contact_stats contactsFixture).replied + (get_contact_stats contactsFixture).archived
    ∧ get_contact_stats contactsFixture = ⟨4, 2, 1, 0, 1⟩ :=
  ⟨(get_contact_stats_spec contactsFixture (by decide)).2.2.2.2.2, by decide⟩

/-! ### C5 — text search selection -/

/-- Written from the spec's words (refinement reference for C5): the query
occurs case-insensitively as a substring of the title, or of the body, or
of the summary (logical OR across the three fields; a missing or
non-string field does not match). -/
def specTextMatch (q : String) (d : Doc) : Bool :=
  (match Doc.lookup d "title" with
   | some (Value.vStr s) => containsCI q s
   | _ => false)
  || (match Doc.lookup d "body" with
      | some (Value.vStr s) => containsCI q s
      | _ => false)
  || (match Doc.lookup d "summary" with
      | some (Value.vStr s) => containsCI q s
      | _ => false)

theorem evalQuery_allContents (q : String) (hq : q ≠ "") (d : Doc) :
    evalQuery (allContentsQuery (some q)) d = specTextMatch q d := by
  simp only [allContentsQuery, if_neg hq, evalQuery, contentSearchOr, evalCond,
    List.all_nil, List.any_cons, List.any_nil, Bool.true_and, Bool.or_false,
    specTextMatch, Bool.or_assoc]

theorem evalQuery_filterContents (c t q : String) (hq : q ≠ "") (d : Doc) :
    evalQuery (filterContentsQuery c t (some q)) d =
      ((Doc.lookup d "category" == some (Value.vStr c))
        && (Doc.lookup d "type" == some (Value.vStr t))
        && specTextMatch q d) := by
  simp only [filterContentsQuery, if_neg hq, evalQuery, contentSearchOr, evalCond,
    List.all_cons, List.all_nil, List.any_cons, List.any_nil, Bool.and_true,
    Bool.true_and, Bool.or_false, specTextMatch, Bool.or_assoc, Bool.and_assoc]

/-- Written from the spec's words (refinement reference for C5): the
filtered listing's predicate — exact category and type match plus the text
match. -/
def specFilterMatch (c t q : String) (d : Doc) : Bool :=
  (Doc.lookup d "category" == some (Value.vStr c))
    && (Doc.lookup d "type" == some (Value.vStr t))
    && specTextMatch q d

/-- C5: with a non-empty search query, `get_all_contents` selects exactly
the documents whose title, body or summary contains the query
case-insensitively (its `total` counts them and its `items` page is drawn
from them), and `get_contents_by_filter` selects exactly the documents
additionally matching category and type; the store's regex evaluation is
modelled per spec §6 as case-insensitive substring match. -/
theorem search_selection_spec (q c t : String) (hq : q ≠ "") :
    (∀ d : Doc, evalQuery (allContentsQuery (some q)) d = specTextMatch q d)
    ∧ (∀ store : Store, ∀ skip limit : Int,
        (get_all_contents store skip limit (some q)).total =
          Int.ofNat (List.filter (specTextMatch q) store).length
        ∧ (get_all_contents store skip limit (some q)).items =
            List.map (fun d => format_content_response (some d))
              (List.take limit.toNat (List.drop skip.toNat
                (sortByDateDesc (List.filter (specTextMatch q) store)))))
    ∧ (∀ d : Doc, evalQuery (filterContentsQuery c t (some q)) d = specFilterMatch c t q d)
    ∧ (∀ store : Store, ∀ skip limit : Int,
        (get_contents_by_filter store c t skip limit (some q)).total =
          Int.ofNat (List.filter (specFilterMatch c t q) store).length
        ∧ (get_contents_by_filter store c t skip limit (some q)).items =
            List.map (fun d => format_content_response (some d))
              (List.take limit.toNat (List.drop skip.toNat
                (sortByDateDesc (List.filter (specFilterMatch c t q) store))))) := by
  have hall : ∀ store : Store,
      List.filter (evalQuery (allContentsQuery (some q))) store =
        List.filter (specTextMatch q) store := by
    intro store
    exact List.filter_congr (fun d _ => evalQuery_allContents q hq d)
  have hflt : ∀ store : Store,
      List.filter (evalQuery (filterContentsQuery c t (some q))) store =
        List.filter (specFilterMatch c t q) store := by
    intro store
    exact List.filter_congr (fun d _ => evalQuery_filterContents c t q hq d)
  refine ⟨evalQuery_allContents q hq, ?_, evalQuery_filterContents c t q hq, ?_⟩
  · intro store skip limit
    constructor
    · show Int.ofNat (count_documents store (evalQuery (allContentsQuery (some q)))) = _
      rw [count_documents, hall store]
    · show List.map _ (List.take _ (List.drop _ (sortByDateDesc
        (List.filter (evalQuery (allContentsQuery (some q))) store)))) = _
      rw [hall store]
  · intro store skip limit
    constructor
    · show Int.ofNat (count_documents store (evalQuery (filterContentsQuery c t (some q)))) = _
      rw [count_documents, hflt store]
    · show List.map _ (List.take _ (List.drop _ (sortByDateDesc
        (List.filter (evalQuery (filterContentsQuery c t (some q))) store)))) = _
      rw [hflt store]

/-- A three-document fixture: the query "tax" occurs (case-insensitively)
in the first document's title and the second document's summary but
nowhere in the third. -/
def searchFixture : Store :=
  [[("title", Value.vStr "New TAX rules"), ("category", Value.vStr "gst"),
    ("type", Value.vStr "news"), ("body", Value.vStr "details")],
   [("title", Value.vStr "Budget"), ("category", Value.vStr "gst"),
    ("type", Value.vStr "news"), ("summary", Value.vStr "income tax update")],
   [("title", Value.vStr "MCA news"), ("category", Value.vStr "mca"),
    ("type", Value.vStr "articles"), ("body", Value.vStr "companies act")]]

/-- C5 witness: on the fixture, the query "tax" selects the two matching
documents for `get_all_contents` and one for the gst/news filter. -/
theorem search_selection_spec_witness :
    (get_all_contents searchFixture 0 10 (some "tax")).total = 2
    ∧ (get_contents_by_filter searchFixture "gst" "news" 0 10 (some "tax")).total = 2
    ∧ (get_contents_by_filter searchFixture "mca" "articles" 0 10 (some "tax")).total = 0
    ∧ (List.filter (specTextMatch "tax") searchFixture).length = 2 := by
  have h := search_selection_spec "tax" "gst" "news" (by decide)
  have h1 := (h.2.1 searchFixture 0 10).1
  have h2 := ((search_selection_spec "tax" "mca" "articles" (by decide)).2.2.2 searchFixture 0 10).1
  refine ⟨?_, ?_, ?_, by decide⟩
  · rw [h1]
    decide
  · rw [((search_selection_spec "tax" "gst" "news" (by decide)).2.2.2 searchFixture 0 10).1]
    decide
  · rw [h2]
    decide

/-! ### C6 — login failure indistinguishability -/

/-- C6: a login with an unknown email and a login with a known email but a
password whose digest differs from the stored digest fail with the
identical 401 "Invalid email or password" error — the two failures carry
no distinguishing detail. -/
theorem login_failure_indistinguishable (hash : String → String) (users : Store)
    (e1 p1 t1 : String) (n1 : Value) (e2 p2 t2 : String) (n2 : Value) (u2 : Doc)
    (h1 : find_one users (byEmail e1) = none)
    (h2 : find_one users (byEmail e2) = some u2)
    (hpw : ¬ Doc.lookup u2 "password" = some (Value.vStr (hash p2))) :
    login hash users e1 p1 t1 n1 =
      Except.error { status_code := 401, detail := "Invalid email or password" }
    ∧ login hash users e2 p2 t2 n2 =
      Except.error { status_code := 401, detail := "Invalid email or password" }
    ∧ login hash users e1 p1 t1 n1 = login hash users e2 p2 t2 n2 := by
  have hl1 : login hash users e1 p1 t1 n1 =
      Except.error { status_code := 401, detail := "Invalid email or password" } := by
    unfold login
    rw [h1]
  have hl2 : login hash users e2 p2 t2 n2 =
      Except.error { status_code := 401, detail := "Invalid email or password" } := by
    unfold login
    rw [h2]
    simp [hpw]
  exact ⟨hl1, hl2, by rw [hl1, hl2]⟩

/-- C6 witness: one stored user; unknown email vs wrong password. -/
theorem login_failure_indistinguishable_witness :
    login (fun s => s) [[("email", Value.vStr "a@b.c"), ("password", Value.vStr "pw")]]
        "x@y.z" "pw" "tok1" (Value.vNat 1) =
      Except.error { status_code := 401, detail := "Invalid email or password" }
    ∧ login (fun s => s) [[("email", Value.vStr "a@b.c"), ("password", Value.vStr "pw")]]
        "a@b.c" "wrong" "tok2" (Value.vNat 2) =
      Except.error { status_code := 401, detail := "Invalid email or password" }
    ∧ login (fun s => s) [[("email", Value.vStr "a@b.c"), ("password", Value.vStr "pw")]]
        "x@y.z" "pw" "tok1" (Value.vNat 1) =
      login (fun s => s) [[("email", Value.vStr "a@b.c"), ("password", Value.vStr "pw")]]
        "a@b.c" "wrong" "tok2" (Value.vNat 2) :=
  login_failure_indistinguishable (fun s => s)
    [[("email", Value.vStr "a@b.c"), ("password", Value.vStr "pw")]]
    "x@y.z" "pw" "tok1" (Value.vNat 1) "a@b.c" "wrong" "tok2" (Value.vNat 2)
    [("email", Value.vStr "a@b.c"), ("password", Value.vStr "pw")]
    (by decide) (by decide) (by decide)

/-! ### C4 — partial update semantics (null-dropping, frame) -/

theorem dropNulls_lookup_none (ud : Doc) (k : String)
    (h : Doc.lookup ud k = none) :
    Doc.lookup (dropNulls ud) k = none := by
  induction ud with
  | nil => rfl
  | cons p rest ih =>
    obtain ⟨k1, v1⟩ := p
    by_cases h1 : k1 = k
    · subst h1
      simp [Doc.lookup] at h
    · simp only [Doc.lookup, if_neg h1] at h
      by_cases hv : v1 = Value.vNull
      · simp only [dropNulls, if_pos hv]
        exact ih h
      · simp only [dropNulls, if_neg hv, Doc.lookup, if_neg h1]
        exact ih h

theorem dropNulls_lookup_of_null (ud : Doc) (k : String)
    (hnd : (List.map Prod.fst ud).Nodup)
    (h : Doc.lookup ud k = some Value.vNull) :
    Doc.lookup (dropNulls ud) k = none := by
  induction ud with
  | nil => simp [Doc.lookup] at h
  | cons p rest ih =>
    obtain ⟨k1, v1⟩ := p
    simp only [List.map_cons, List.nodup_cons] at hnd
    by_cases h1 : k1 = k
    · subst h1
      have hv : v1 = Value.vNull := by simpa [Doc.lookup] using h
      subst hv
      simp only [dropNulls, if_pos rfl]
      exact dropNulls_lookup_none rest k1 ((Doc.lookup_eq_none_iff rest k1).mpr hnd.1)
    · simp only [Doc.lookup, if_neg h1] at h
      by_cases hv : v1 = Value.vNull
      · simp only [dropNulls, if_pos hv]
        exact ih hnd.2 h
      · simp only [dropNulls, if_neg hv, Doc.lookup, if_neg h1]
        exact ih hnd.2 h

theorem dropNulls_keys_subset (ud : Doc) (k : String)
    (h : k ∈ List.map Prod.fst (dropNulls ud)) : k ∈ List.map Prod.fst ud := by
  induction ud with
  | nil => simpa [dropNulls] using h
  | cons p rest ih =>
    obtain ⟨k1, v1⟩ := p
    by_cases hv : v1 = Value.vNull
    · simp only [dropNulls, if_pos hv] at h
      simp [ih h]
    · simp only [dropNulls, if_neg hv, List.map_cons, List.mem_cons] at h
      rcases h with h | h
      · simp [h]
      · simp [ih h]

theorem dropNulls_keys_nodup (ud : Doc)
    (hnd : (List.map Prod.fst ud).Nodup) :
    (List.map Prod.fst (dropNulls ud)).Nodup := by
  induction ud with
  | nil => simp [dropNulls]
  | cons p rest ih =>
    obtain ⟨k1, v1⟩ := p
    simp only [List.map_cons, List.nodup_cons] at hnd
    by_cases hv : v1 = Value.vNull
    · simp only [dropNulls, if_pos hv]
      exact ih hnd.2
    · simp only [dropNulls, if_neg hv, List.map_cons, List.nodup_cons]
      exact ⟨fun hmem => hnd.1 (dropNulls_keys_subset rest k1 hmem), ih hnd.2⟩

theorem Doc.keys_set_nodup (d : Doc) (k : String) (v : Value)
    (hnd : (List.map Prod.fst d).Nodup) :
    (List.map Prod.fst (Doc.set d k v)).Nodup := by
  induction d with
  | nil => simp [Doc.set]
  | cons p rest ih =>
    obtain ⟨k0, v0⟩ := p
    simp only [List.map_cons, List.nodup_cons] at hnd
    by_cases h : k0 = k
    · subst h
      have hset : Doc.set ((k0, v0) :: rest) k0 v = (k0, v) :: rest := by
        simp [Doc.set]
      rw [hset, List.map_cons]
      exact List.nodup_cons.mpr hnd
    · simp only [Doc.set, if_neg h, List.map_cons, List.nodup_cons]
      refine ⟨?_, ih hnd.2⟩
      intro hmem
      rcases Doc.keys_set rest k v with hk | hk
      · rw [hk] at hmem
        exact hnd.1 hmem
      · rw [hk] at hmem
        rcases List.mem_append.mp hmem with hmem | hmem
        · exact hnd.1 hmem
        · simp at hmem
          exact h hmem

/-- C4 (amended): on an existing document, `update_content` drops all
null-valued fields from the partial before applying it; every field other
than `updated_at` that is absent from the dropped partial — in particular
every null-valued field of the original partial — keeps its prior stored
value, every non-null field of the partial takes its new value,
`updated_at` is stamped with the write time whenever the dropped partial
is non-empty, and if the partial is empty after dropping nulls no store
write is performed and the current document is returned unchanged. -/
theorem update_content_spec (store : Store) (id : String) (ud : Doc) (now : Value) (ex : Doc)
    (hv : is_valid_object_id id = true)
    (hex : find_one store (byId (objectIdOf id)) = some ex)
    (hnd : (List.map Prod.fst ud).Nodup)
    (hid : Doc.lookup ud "_id" = none) :
    (dropNulls ud = ([] : Doc) →
        update_content store id ud now = Except.ok (format_content_response (some ex), store))
    ∧ (¬ dropNulls ud = ([] : Doc) →
        update_content store id ud now =
          Except.ok
            (format_content_response
              (some (Doc.merge ex (Doc.set (dropNulls ud) "updated_at" now))),
             update_first store (byId (objectIdOf id))
               (fun d => Doc.merge d (Doc.set (dropNulls ud) "updated_at" now)))
        ∧ Doc.lookup (Doc.merge ex (Doc.set (dropNulls ud) "updated_at" now)) "updated_at"
            = some now
        ∧ (∀ k v', ¬ k = "updated_at" → Doc.lookup (dropNulls ud) k = some v' →
            Doc.lookup (Doc.merge ex (Doc.set (dropNulls ud) "updated_at" now)) k = some v')
        ∧ (∀ k, ¬ k = "updated_at" → Doc.lookup (dropNulls ud) k = none →
            Doc.lookup (Doc.merge ex (Doc.set (dropNulls ud) "updated_at" now)) k
              = Doc.lookup ex k)
        ∧ (∀ k, ¬ k = "updated_at" → Doc.lookup ud k = some Value.vNull →
            Doc.lookup (Doc.merge ex (Doc.set (dropNulls ud) "updated_at" now)) k
              = Doc.lookup ex k)) := by
  have hupdnd : (List.map Prod.fst (Doc.set (dropNulls ud) "updated_at" now)).Nodup :=
    Doc.keys_set_nodup _ _ _ (dropNulls_keys_nodup ud hnd)
  have hupd_id : Doc.lookup (Doc.set (dropNulls ud) "updated_at" now) "_id" = none := by
    rw [Doc.lookup_set_ne _ _ _ _ (by decide)]
    exact dropNulls_lookup_none ud "_id" hid
  constructor
  · intro hempty
    unfold update_content
    rw [if_neg (by simp [hv]), hex]
    simp [hempty, hex]
  · intro hne
    have hfo : find_one
        (update_first store (byId (objectIdOf id))
          (fun d => Doc.merge d (Doc.set (dropNulls ud) "updated_at" now)))
        (byId (objectIdOf id))
        = some (Doc.merge ex (Doc.set (dropNulls ud) "updated_at" now)) := by
      obtain ⟨pre, post, hsplit, hpre, hpe⟩ := find?_split (show List.find? (byId (objectIdOf id)) store = some ex from hex)
      subst hsplit
      rw [update_first_append pre ex post _ _ hpre hpe]
      show List.find? _ _ = _
      rw [find?_append_of_false hpre]
      rw [List.find?_cons_of_pos]
      simp only [byId, beq_iff_eq] at hpe ⊢
      rw [Doc.lookup_merge_none _ _ _ hupd_id]
      exact hpe
    refine ⟨?_, ?_, ?_, ?_, ?_⟩
    · unfold update_content
      rw [if_neg (by simp [hv]), hex]
      simp only [if_neg hne, hfo]
    · exact Doc.lookup_merge_some _ _ _ _ hupdnd (Doc.lookup_set_self _ _ _)
    · intro k v' hk hkv
      refine Doc.lookup_merge_some _ _ _ _ hupdnd ?_
      rw [Doc.lookup_set_ne _ _ _ _ hk]
      exact hkv
    · intro k hk hkn
      refine Doc.lookup_merge_none _ _ _ ?_
      rw [Doc.lookup_set_ne _ _ _ _ hk]
      exact hkn
    · intro k hk hknull
      refine Doc.lookup_merge_none _ _ _ ?_
      rw [Doc.lookup_set_ne _ _ _ _ hk]
      exact dropNulls_lookup_of_null ud k hnd hknull

/-- The stored document of the C4 witness scenario. -/
def updateFixtureDoc : Doc :=
  [("_id", Value.vOid "aaaaaaaaaaaaaaaaaaaaaaaa"),
   ("title", Value.vStr "Old"), ("summary", Value.vStr "S")]

/-- The partial update of the C4 witness scenario — the spec's own
example: a null summary plus a new title. -/
def updateFixturePartial : Doc :=
  [("summary", Value.vNull), ("title", Value.vStr "New")]

/-- C4 witness: updating with `\x7bsummary: null, title: "New"\x7d` leaves
`summary` unchanged, sets `title`, stamps `updated_at`. -/
theorem update_content_spec_witness :
    Doc.lookup (Doc.merge updateFixtureDoc
        (Doc.set (dropNulls updateFixturePartial) "updated_at" (Value.vNat 9)))
      "summary" = Doc.lookup updateFixtureDoc "summary"
    ∧ Doc.lookup (Doc.merge updateFixtureDoc
        (Doc.set (dropNulls updateFixturePartial) "updated_at" (Value.vNat 9)))
      "title" = some (Value.vStr "New")
    ∧ Doc.lookup (Doc.merge updateFixtureDoc
        (Doc.set (dropNulls updateFixturePartial) "updated_at" (Value.vNat 9)))
      "updated_at" = some (Value.vNat 9)
    ∧ update_content [updateFixtureDoc] "aaaaaaaaaaaaaaaaaaaaaaaa"
        updateFixturePartial (Value.vNat 9) =
      Except.ok
        (format_content_response
          (some (Doc.merge updateFixtureDoc
            (Doc.set (dropNulls updateFixturePartial) "updated_at" (Value.vNat 9)))),
         update_first [updateFixtureDoc] (byId (objectIdOf "aaaaaaaaaaaaaaaaaaaaaaaa"))
           (fun d => Doc.merge d (Doc.set (dropNulls updateFixturePartial) "updated_at" (Value.vNat 9)))) :=
  have h := update_content_spec [updateFixtureDoc] "aaaaaaaaaaaaaaaaaaaaaaaa"
    updateFixturePartial (Value.vNat 9) updateFixtureDoc
    (by decide) rfl (by decide) rfl
  have h2 := h.2 (by decide)
  ⟨h2.2.2.2.2 "summary" (by decide) rfl,
   h2.2.2.1 "title" (Value.vStr "New") (by decide) rfl,
   h2.2.1,
   h2.1⟩

/-- C4 counterexample: the claim says every field absent from the partial
(after null-dropping) keeps its prior stored value, but the code always
stamps `updated_at` on a non-empty write: updating only `title` changes
`updated_at` from 5 to 9. -/
theorem update_content_updated_at_counterexample :
    Doc.lookup [("title", Value.vStr "New")] "updated_at" = none
    ∧ Doc.lookup [("_id", Value.vOid "aaaaaaaaaaaaaaaaaaaaaaaa"),
        ("title", Value.vStr "Old"), ("updated_at", Value.vNat 5)] "updated_at"
        = some (Value.vNat 5)
    ∧ (match update_content
          [[("_id", Value.vOid "aaaaaaaaaaaaaaaaaaaaaaaa"),
            ("title", Value.vStr "Old"), ("updated_at", Value.vNat 5)]]
          "aaaaaaaaaaaaaaaaaaaaaaaa" [("title", Value.vStr "New")] (Value.vNat 9) with
       | Except.ok r => Doc.lookup r.1 "updated_at"
       | Except.error _ => none) = some (Value.vNat 9) := by
  refine ⟨rfl, rfl, ?_⟩
  decide

/-! ### C2 / C7 — session lifecycle -/

theorem replaceList_append (pat rep rest : List Char) (hne : pat ≠ []) :
    replaceList pat rep (pat ++ rest) = rep ++ replaceList pat rep (List.drop pat.length (pat ++ rest)) := by
  cases pat with
  | nil => exact absurd rfl hne
  | cons p ps =>
    rw [List.cons_append]
    simp only [replaceList]
    rw [dif_pos]
    refine ⟨hne, ?_⟩
    rw [← List.cons_append]
    exact List.isPrefixOf_iff_prefix.mpr (List.prefix_append _ _)

theorem replaceList_of_not_infix (pat rep t : List Char)
    (h : isInfixL pat t = false) :
    replaceList pat rep t = t := by
  induction t with
  | nil => simp [replaceList]
  | cons c rest ih =>
    simp only [isInfixL, Bool.or_eq_false_iff] at h
    simp only [replaceList]
    rw [dif_neg]
    · rw [ih h.2]
    · rintro ⟨hne, hp⟩
      rw [h.1] at hp
      exact absurd hp (by simp)

/-- Stripping a "Bearer " prefix via Python `replace` recovers the token
when the token itself does not contain the prefix. -/
theorem string_replace_strip (pre t : String) (hne : pre.data ≠ [])
    (h : isInfixL pre.data t.data = false) :
    string_replace (pre ++ t) pre "" = t := by
  unfold string_replace
  rw [String.data_append, replaceList_append _ _ _ hne, List.drop_left,
    replaceList_of_not_infix _ _ _ h]
  show String.mk t.data = t
  cases t
  rfl

theorem string_startswith_append (pre t : String) :
    string_startswith (pre ++ t) pre = true := by
  unfold string_startswith
  rw [String.data_append]
  exact List.isPrefixOf_iff_prefix.mpr (List.prefix_append _ _)

/-- Resolving `get_current_user` on a well-formed bearer header reduces to the token
lookup. -/
theorem get_current_user_eq (users : Store) (t : String)
    (hrep : string_replace ("Bearer " ++ t) "Bearer " "" = t) :
    get_current_user users (some ("Bearer " ++ t)) =
      (match find_one users (byToken t) with
       | none => Except.error { status_code := 401, detail := "Invalid authentication token" }
       | some user => Except.ok user) := by
  unfold get_current_user
  simp [string_startswith_append, hrep]

theorem withToken_lookup_token (t : String) (now : Value) (d : Doc) :
    Doc.lookup (withToken t now d) "token" = some (Value.vStr t) := by
  unfold withToken
  rw [Doc.lookup_set_ne _ _ _ _ (by decide), Doc.lookup_set_self]

theorem withToken_lookup_id (t : String) (now : Value) (d : Doc) :
    Doc.lookup (withToken t now d) "_id" = Doc.lookup d "_id" := by
  unfold withToken
  rw [Doc.lookup_set_ne _ _ _ _ (by decide), Doc.lookup_set_ne _ _ _ _ (by decide)]

theorem byIdOf_self (u : Doc) (h : (Doc.lookup u "_id").isSome = true) :
    byIdOf u u = true := by
  simp [byIdOf, h]

theorem login_success_state (hash : String → String) (users : Store)
    (email password t : String) (now : Value) (u : Doc)
    (hfind : find_one users (byEmail email) = some u)
    (hpw : Doc.lookup u "password" = some (Value.vStr (hash password))) :
    login hash users email password t now =
      Except.ok (loginResultOf u t, update_first users (byIdOf u) (withToken t now)) := by
  unfold login
  rw [hfind]
  simp [hpw]

/-- C2: for a stored user, a successful login issuing a fresh token t
leaves the store in a state where resolving the bearer header for t
returns that same user (same `_id`, now carrying the token), and after
that user's logout resolving the same t fails with the 401
"Invalid authentication token" (Unauthenticated) error.  Freshness of the
random token (no stored user already holds t) and unique `_id`s are the
store invariants the code relies on. -/
theorem login_resolve_logout_spec (hash : String → String) (users : Store)
    (email password t : String) (now : Value) (u : Doc)
    (hfind : find_one users (byEmail email) = some u)
    (hpw : Doc.lookup u "password" = some (Value.vStr (hash password)))
    (hid : (Doc.lookup u "_id").isSome = true)
    (huniq : List.Pairwise (fun a b => Doc.lookup a "_id" ≠ Doc.lookup b "_id") users)
    (hfresh : ∀ d ∈ users, Doc.lookup d "token" ≠ some (Value.vStr t))
    (hinf : isInfixL ("Bearer ".data) t.data = false) :
    login hash users email password t now =
      Except.ok (loginResultOf u t, update_first users (byIdOf u) (withToken t now))
    ∧ get_current_user (update_first users (byIdOf u) (withToken t now))
        (some ("Bearer " ++ t)) = Except.ok (withToken t now u)
    ∧ Doc.lookup (withToken t now u) "_id" = Doc.lookup u "_id"
    ∧ get_current_user
        (logout (update_first users (byIdOf u) (withToken t now)) (withToken t now u))
        (some ("Bearer " ++ t))
      = Except.error { status_code := 401, detail := "Invalid authentication token" } := by
  have hrep : string_replace ("Bearer " ++ t) "Bearer " "" = t :=
    string_replace_strip "Bearer " t (by decide) hinf
  have hlogin := login_success_state hash users email password t now u hfind hpw
  obtain ⟨pre, post, hsplit, hpre, hpu⟩ :=
    find?_split (show List.find? (byEmail email) users = some u from hfind)
  subst hsplit
  rw [List.pairwise_append] at huniq
  have hprene : ∀ d ∈ pre, byIdOf u d = false := by
    intro d hd
    have hne : Doc.lookup d "_id" ≠ Doc.lookup u "_id" := huniq.2.2 d hd u (by simp)
    simp [byIdOf, beq_eq_false_iff_ne.mpr hne]
  have hpostne : ∀ d ∈ post, Doc.lookup d "_id" ≠ Doc.lookup u "_id" := by
    intro d hd
    have := (List.pairwise_cons.mp huniq.2.1).1 d hd
    exact fun hh => this hh.symm
  have hupd : update_first (pre ++ u :: post) (byIdOf u) (withToken t now)
      = pre ++ withToken t now u :: post :=
    update_first_append pre u post _ _ hprene (byIdOf_self u hid)
  have htokpre : ∀ d ∈ pre, byToken t d = false := by
    intro d hd
    have := hfresh d (by simp [hd])
    simp [byToken, beq_eq_false_iff_ne.mpr this]
  have htokpost : ∀ d ∈ post, byToken t d = false := by
    intro d hd
    have := hfresh d (by simp [hd])
    simp [byToken, beq_eq_false_iff_ne.mpr this]
  have hresolve : get_current_user (pre ++ withToken t now u :: post)
      (some ("Bearer " ++ t)) = Except.ok (withToken t now u) := by
    rw [get_current_user_eq _ t hrep]
    have hfo : find_one (pre ++ withToken t now u :: post) (byToken t)
        = some (withToken t now u) := by
      unfold find_one
      rw [find?_append_of_false htokpre, List.find?_cons_of_pos]
      simp [byToken, withToken_lookup_token]
    rw [hfo]
  have hbyid_eq : byIdOf (withToken t now u) = byIdOf u := by
    funext d
    unfold byIdOf
    rw [withToken_lookup_id]
  have hwu_self : byIdOf u (withToken t now u) = true := by
    simp [byIdOf, withToken_lookup_id, hid]
  have hlogout : logout (pre ++ withToken t now u :: post) (withToken t now u)
      = pre ++ Doc.erase (withToken t now u) "token" :: post := by
    unfold logout
    rw [hbyid_eq]
    exact update_first_append pre _ post _ _ hprene hwu_self
  have hresolve2 : get_current_user
      (pre ++ Doc.erase (withToken t now u) "token" :: post) (some ("Bearer " ++ t))
      = Except.error { status_code := 401, detail := "Invalid authentication token" } := by
    rw [get_current_user_eq _ t hrep]
    have hfo : find_one (pre ++ Doc.erase (withToken t now u) "token" :: post)
        (byToken t) = none := by
      unfold find_one
      rw [List.find?_eq_none]
      intro d hd
      rcases List.mem_append.mp hd with hd | hd
      · simp [htokpre d hd]
      · rcases List.mem_cons.mp hd with rfl | hd
        · simp [byToken, Doc.lookup_erase_self]
        · simp [htokpost d hd]
    rw [hfo]
  exact ⟨hlogin, by rw [hupd]; exact hresolve, withToken_lookup_id t now u,
    by rw [hupd, hlogout]; exact hresolve2⟩

/-- The stored admin user of the C2/C7 witness scenarios. -/
def userFixture : Doc :=
  [("_id", Value.vOid "aaaaaaaaaaaaaaaaaaaaaaaa"),
   ("email", Value.vStr "admin@x.co"),
   ("password", Value.vStr "pw"),
   ("token", Value.vStr "old"),
   ("name", Value.vStr "Admin")]

/-- C2 witness: login issues "tok", the bearer header for "tok" resolves
to the same user, and after logout it is rejected. -/
theorem login_resolve_logout_spec_witness :
    login (fun s => s) [userFixture] "admin@x.co" "pw" "tok" (Value.vNat 7) =
      Except.ok (loginResultOf userFixture "tok",
        update_first [userFixture] (byIdOf userFixture) (withToken "tok" (Value.vNat 7)))
    ∧ get_current_user
        (update_first [userFixture] (byIdOf userFixture) (withToken "tok" (Value.vNat 7)))
        (some ("Bearer " ++ "tok")) = Except.ok (withToken "tok" (Value.vNat 7) userFixture)
    ∧ get_current_user
        (logout (update_first [userFixture] (byIdOf userFixture)
          (withToken "tok" (Value.vNat 7))) (withToken "tok" (Value.vNat 7) userFixture))
        (some ("Bearer " ++ "tok"))
      = Except.error { status_code := 401, detail := "Invalid authentication token" } :=
  have h := login_resolve_logout_spec (fun s => s) [userFixture] "admin@x.co" "pw" "tok"
    (Value.vNat 7) userFixture rfl rfl rfl
    (by simp [List.pairwise_singleton]) (by decide) (by decide)
  ⟨h.1, h.2.1, h.2.2.2⟩

/-- C7: the token is a single mutable field, so a successful login
overwrites any prior token: afterwards the user's record holds exactly the
new token, the old token differs from the new one, and resolving the old
token can no longer return that user (any hit has a different `_id`). -/
theorem login_invalidates_prior_token_spec (hash : String → String) (users : Store)
    (email password tnew told : String) (now : Value) (u : Doc)
    (hfind : find_one users (byEmail email) = some u)
    (hpw : Doc.lookup u "password" = some (Value.vStr (hash password)))
    (hid : (Doc.lookup u "_id").isSome = true)
    (huniq : List.Pairwise (fun a b => Doc.lookup a "_id" ≠ Doc.lookup b "_id") users)
    (hfresh : ∀ d ∈ users, Doc.lookup d "token" ≠ some (Value.vStr tnew))
    (hold : Doc.lookup u "token" = some (Value.vStr told))
    (hinf : isInfixL ("Bearer ".data) told.data = false) :
    Doc.lookup (withToken tnew now u) "token" = some (Value.vStr tnew)
    ∧ ¬ told = tnew
    ∧ (∀ u', get_current_user (update_first users (byIdOf u) (withToken tnew now))
          (some ("Bearer " ++ told)) = Except.ok u' →
        ¬ Doc.lookup u' "_id" = Doc.lookup u "_id") := by
  have hrep : string_replace ("Bearer " ++ told) "Bearer " "" = told :=
    string_replace_strip "Bearer " told (by decide) hinf
  have humem : u ∈ users := List.mem_of_find?_eq_some hfind
  have htne : ¬ told = tnew := by
    intro hh
    exact hfresh u humem (hh ▸ hold)
  obtain ⟨pre, post, hsplit, hpre, hpu⟩ :=
    find?_split (show List.find? (byEmail email) users = some u from hfind)
  subst hsplit
  rw [List.pairwise_append] at huniq
  have hprene : ∀ d ∈ pre, byIdOf u d = false := by
    intro d hd
    have hne : Doc.lookup d "_id" ≠ Doc.lookup u "_id" := huniq.2.2 d hd u (by simp)
    simp [byIdOf, beq_eq_false_iff_ne.mpr hne]
  have hupd : update_first (pre ++ u :: post) (byIdOf u) (withToken tnew now)
      = pre ++ withToken tnew now u :: post :=
    update_first_append pre u post _ _ hprene (byIdOf_self u hid)
  refine ⟨withToken_lookup_token tnew now u, htne, ?_⟩
  intro u' hres heq
  rw [hupd, get_current_user_eq _ told hrep] at hres
  cases hfo : find_one (pre ++ withToken tnew now u :: post) (byToken told) with
  | none =>
    rw [hfo] at hres
    exact absurd hres (by simp)
  | some x =>
    rw [hfo] at hres
    have hx : x = u' := by
      have := Except.ok.inj hres
      exact this
    subst hx
    have hmemx : x ∈ pre ++ withToken tnew now u :: post :=
      List.mem_of_find?_eq_some hfo
    have htokx : byToken told x = true := List.find?_some hfo
    rcases List.mem_append.mp hmemx with hd | hd
    · exact absurd heq (huniq.2.2 x hd u (by simp))
    · rcases List.mem_cons.mp hd with rfl | hd
      · rw [byToken, withToken_lookup_token] at htokx
        simp only [beq_iff_eq, Option.some.injEq, Value.vStr.injEq] at htokx
        exact htne htokx.symm
      · have := (List.pairwise_cons.mp huniq.2.1).1 x hd
        exact this heq.symm

/-- A second stored user who happens to hold the same token string "old":
resolving "old" after the first user's re-login hits this user, never the
first one. -/
def userFixture2 : Doc :=
  [("_id", Value.vOid "bbbbbbbbbbbbbbbbbbbbbbbb"),
   ("email", Value.vStr "other@x.co"),
   ("password", Value.vStr "pw2"),
   ("token", Value.vStr "old")]

/-- C7 witness: after the first user re-logs-in with fresh token "tok",
the bearer header for the prior token "old" resolves to the second user,
whose identifier differs from the first user's. -/
theorem login_invalidates_prior_token_spec_witness :
    Doc.lookup (withToken "tok" (Value.vNat 7) userFixture) "token"
      = some (Value.vStr "tok")
    ∧ ¬ "old" = "tok"
    ∧ get_current_user
        (update_first [userFixture, userFixture2] (byIdOf userFixture)
          (withToken "tok" (Value.vNat 7)))
        (some ("Bearer " ++ "old")) = Except.ok userFixture2
    ∧ ¬ Doc.lookup userFixture2 "_id" = Doc.lookup userFixture "_id" :=
  have h := login_invalidates_prior_token_spec (fun s => s) [userFixture, userFixture2]
    "admin@x.co" "pw" "tok" "old" (Value.vNat 7) userFixture rfl rfl rfl
    (by simp [List.pairwise_cons]; decide) (by decide) rfl (by decide)
  have hrep : string_replace ("Bearer " ++ "old") "Bearer " "" = "old" :=
    string_replace_strip "Bearer " "old" (by decide) (by decide)
  have hres : get_current_user
      (update_first [userFixture, userFixture2] (byIdOf userFixture)
        (withToken "tok" (Value.vNat 7)))
      (some ("Bearer " ++ "old")) = Except.ok userFixture2 := by
    rw [get_current_user_eq _ "old" hrep]
    rfl
  ⟨h.1, h.2.1, hres, h.2.2 userFixture2 hres⟩

end TaxEmploy
